import Mathlib

/-!
Verification development for the FDA drug-label JSON structure analyzer
(`LabelAnalyzer.py`, class `FDALabelAnalyzer`).

The Python program walks arbitrarily nested JSON documents, accumulating
per-field-path statistics in `self.field_stats` (a `defaultdict` keyed by
dotted path strings), and finally folds the accumulator collection into a
report (`_generate_report`) that includes a hierarchical structure tree
(`_build_structure_tree`).

Shallow embedding conventions:
* JSON values are the mutual inductive family `JValue` / `JObj` / `JArr`
  (`JObj` models a Python dict as an insertion-ordered sequence of pairs,
  which is exactly the guaranteed iteration order of Python dicts).
* `self.field_stats` is `State`: an insertion-ordered association list from
  field-path strings to `FieldStats`; `updateStats` models the `defaultdict`
  get-or-create-then-mutate access pattern (new keys appended at the end).
* Python `set` objects (`html_tags`, `section_codes`) are modeled as
  duplicate-free lists in insertion order; `pyAdd` models `set.add`.
  (CPython's real iteration order for string sets is hash-seed dependent;
  the model fixes insertion order as the representative enumeration.)
* BeautifulSoup is an external collaborator (spec section 4.2); it is
  modeled by an abstract parameter `parse : String -> Soup` where `Soup`
  carries the flattened `find_all()` element list (document order) and the
  `get_text(strip=True)` text, which is all `_analyze_html_content` uses.
* Exceptions are modeled with `Except` / `Option`: a non-dict drug aborts
  `analyze_json_file` (Python `AttributeError` on `.items()`), and a
  structure-tree descent into a non-dict value aborts `_generate_report`
  (Python `TypeError`).
-/

mutual
/-- One JSON value, as `json.load` produces it: dict, list, str, number,
bool, or null.  Numbers are modeled as integers (the walker never inspects
numeric values beyond `str(value)`). -/
inductive JValue where
  | obj : JObj → JValue
  | arr : JArr → JValue
  | str : String → JValue
  | num : Int → JValue
  | bool : Bool → JValue
  | null : JValue

inductive JObj where
  | nil : JObj
  | cons : String → JValue → JObj → JObj

inductive JArr where
  | nil : JArr
  | cons : JValue → JArr → JArr
end

/-- Number of elements of a JSON array (Python `len(value)`). -/
def jarrLen : JArr → Nat
  | JArr.nil => 0
  | JArr.cons _ t => 1 + jarrLen t

/-- Python `str(value)` for the scalar values that reach the final `else`
branch of `_analyze_drug` (numbers, booleans, `None`).  The dict/list/str
constructors never reach that branch (they are matched earlier); their
equations are included only to make the function total. -/
def pyStr : JValue → String
  | JValue.num n => toString n
  | JValue.bool b => if b then "True" else "False"
  | JValue.null => "None"
  | JValue.str s => s
  | JValue.obj _ => ""
  | JValue.arr _ => ""

/-- The per-field accumulator: the default value of `self.field_stats`
(lines 12-20 of the source). -/
structure FieldStats where
  count : Nat
  sample_values : List String
  html_tags : List String
  max_length : Nat
  has_tables : Bool
  has_lists : Bool
  section_codes : List String
deriving DecidableEq

/-- The `defaultdict` default: `count 0`, empty samples, empty tag set,
`max_length 0`, both flags false, empty section-code set. -/
def emptyStats : FieldStats :=
  { count := 0, sample_values := [], html_tags := [], max_length := 0,
    has_tables := false, has_lists := false, section_codes := [] }

/-- `self.field_stats`: insertion-ordered mapping from field path to stats. -/
abbrev State : Type := List (String × FieldStats)

/-- Lookup in an insertion-ordered string-keyed mapping (Python `d[k]`
read, when present). -/
def pyGet {α : Type} : List (String × α) → String → Option α
  | [], _ => none
  | (k, v) :: rest, f => if k = f then some v else pyGet rest f

/-- Write to an insertion-ordered string-keyed mapping: replace in place
when the key exists, append at the end otherwise (Python dict assignment
semantics). -/
def pySet {α : Type} : List (String × α) → String → α → List (String × α)
  | [], f, v => [(f, v)]
  | (k, w) :: rest, f, v => if k = f then (k, v) :: rest else (k, w) :: pySet rest f v

/-- Read of `self.field_stats[f]` under `defaultdict` semantics: a missing
key reads as the default stats record. -/
def getStats (s : State) (f : String) : FieldStats :=
  (pyGet s f).getD emptyStats

/-- One `defaultdict` access-and-mutate step: `self.field_stats[f]` is
created with the default value if absent, then mutated by `g`. -/
def updateStats (s : State) (f : String) (g : FieldStats → FieldStats) : State :=
  pySet s f (g (getStats s f))

/-- Python `set.add` on the insertion-ordered list model of a set. -/
def pyAdd (l : List String) (x : String) : List String :=
  if x ∈ l then l else l ++ [x]

/-- After a literal `<` was read and at least one non-`>` character was
consumed, scan for the closing `>` (the `[^>]+>` tail of the regex
`<[^>]+>`; everything before the first `>` is a non-`>` character). -/
def toGt : List Char → Bool
  | [] => false
  | c :: rest => if c = '>' then true else toGt rest

/-- After a literal `<` was read: the regex `<[^>]+>` requires the next
character to be a non-`>`, followed by `toGt`. -/
def afterLt : List Char → Bool
  | [] => false
  | c :: rest => if c = '>' then false else toGt rest

/-- Scan of `re.search` at every start position. -/
def isHtmlAux : List Char → Bool
  | [] => false
  | c :: rest => (c = '<' && afterLt rest) || isHtmlAux rest

/-- `_is_html` (source lines 73-75): true iff the text contains a substring
matching the regex `<[^>]+>`. -/
def is_html (text : String) : Bool :=
  isHtmlAux text.data

/-- One element of the parsed markup tree as `_analyze_html_content`
consumes it: its tag name (`tag.name`) and the value of its
`data-sectioncode` attribute when present. -/
structure Element where
  name : String
  sectioncode : Option String

/-- The external BeautifulSoup collaborator, at the interface the source
uses: `elements` is `soup.find_all()` in document order, `textContent` is
`soup.get_text(strip=True)`. -/
structure Soup where
  elements : List Element
  textContent : String

/-- `_analyze_html_content` (source lines 77-101): store an `[HTML] `
preview when the field has no sample yet, union in the tag names, OR in
the table/list flags, union in the section codes.  `parse` is the external
`BeautifulSoup(html, 'html.parser')` call.  (At every call site the field
key is already present in the state, so the unconditional tag/section-code
set updates coincide with Python's per-element `set.add` loop, which
mutates in place.) -/
def analyze_html_content (parse : String → Soup) (s : State) (field_key : String) (html : String) : State :=
  let soup := parse html
  let text_content := soup.textContent.take 200
  let s :=
    if (getStats s field_key).sample_values.length < 1 then
      updateStats s field_key (fun st =>
        { st with sample_values := st.sample_values ++ ["[HTML] " ++ text_content ++ "..."] })
    else s
  let s := updateStats s field_key (fun st =>
    { st with html_tags := soup.elements.foldl (fun acc e => pyAdd acc e.name) st.html_tags })
  let s :=
    if soup.elements.any (fun e => e.name = "table") then
      updateStats s field_key (fun st => { st with has_tables := true })
    else s
  let s :=
    if soup.elements.any (fun e => e.name = "ul" || e.name = "ol") then
      updateStats s field_key (fun st => { st with has_lists := true })
    else s
  updateStats s field_key (fun st =>
    { st with section_codes := (soup.elements.filterMap (fun e => e.sectioncode)).foldl pyAdd st.section_codes })

/-- `_analyze_drug` (source lines 37-71): recursive walk over the pairs of
one (sub-)document.  `pre` is the `prefix` parameter; `f"{prefix}{key}" if
prefix else key` is plain concatenation in both cases.  Dict values
recurse with `field_key + "."`; list values record one unconditional
array sample and recurse into the first element when it is a dict; string
values bump count and max length and then branch on `_is_html`; all other
scalars bump count and store `str(value)` while fewer than 3 samples are
stored. -/
def analyze_drug (parse : String → Soup) : JObj → String → State → State
  | JObj.nil, _, s => s
  | JObj.cons key value rest, pre, s =>
    let field_key := pre ++ key
    let s' :=
      match value with
      | JValue.obj entries => analyze_drug parse entries (field_key ++ ".") s
      | JValue.arr l =>
        let s1 := updateStats s field_key (fun st =>
          { st with count := st.count + 1,
                    sample_values := st.sample_values ++ ["[Array with " ++ toString (jarrLen l) ++ " items]"] })
        match l with
        | JArr.cons (JValue.obj entries) _ => analyze_drug parse entries (field_key ++ "[0].") s1
        | _ => s1
      | JValue.str v =>
        let s1 := updateStats s field_key (fun st => { st with count := st.count + 1 })
        let s2 := updateStats s1 field_key (fun st => { st with max_length := max st.max_length v.length })
        if is_html v then
          analyze_html_content parse s2 field_key v
        else
          if (getStats s2 field_key).sample_values.length < 3 then
            updateStats s2 field_key (fun st =>
              { st with sample_values := st.sample_values ++ [if v.length > 100 then v.take 100 ++ "..." else v] })
          else s2
      | other =>
        let s1 := updateStats s field_key (fun st => { st with count := st.count + 1 })
        if (getStats s1 field_key).sample_values.length < 3 then
          updateStats s1 field_key (fun st => { st with sample_values := st.sample_values ++ [pyStr other] })
        else s1
    analyze_drug parse rest pre s'

/-- A parse function for documents that contain no markup-like strings (or
whose markup parses to zero elements): empty element list, empty text. -/
def emptyParse : String → Soup := fun _ => { elements := [], textContent := "" }

/-- One primitive leaf observation of the walk, in traversal order.  The
walk `analyze_drug` performs exactly the observation sequence `trace` (see
`analyze_drug_eq_applyOps`); each observation carries everything its state
update needs: the field key, and for arrays the length, for strings the
string, for other scalars the Python `str(...)` form. -/
inductive Op where
  | arrayObs : String → Nat → Op
  | strObs : String → String → Op
  | otherObs : String → String → Op

/-- The field key an observation touches. -/
def opKey : Op → String
  | Op.arrayObs k _ => k
  | Op.strObs k _ => k
  | Op.otherObs k _ => k

/-- The state update of one observation: exactly the corresponding branch
body of `_analyze_drug` (lines 45-48, 52-66, 67-71 of the source). -/
def applyOp (parse : String → Soup) (s : State) : Op → State
  | Op.arrayObs k n =>
    updateStats s k (fun st =>
      { st with count := st.count + 1,
                sample_values := st.sample_values ++ ["[Array with " ++ toString n ++ " items]"] })
  | Op.strObs k v =>
    let s1 := updateStats s k (fun st => { st with count := st.count + 1 })
    let s2 := updateStats s1 k (fun st => { st with max_length := max st.max_length v.length })
    if is_html v then
      analyze_html_content parse s2 k v
    else
      if (getStats s2 k).sample_values.length < 3 then
        updateStats s2 k (fun st =>
          { st with sample_values := st.sample_values ++ [if v.length > 100 then v.take 100 ++ "..." else v] })
      else s2
  | Op.otherObs k r =>
    let s1 := updateStats s k (fun st => { st with count := st.count + 1 })
    if (getStats s1 k).sample_values.length < 3 then
      updateStats s1 k (fun st => { st with sample_values := st.sample_values ++ [r] })
    else s1

/-- The sequence of leaf observations of `_analyze_drug` on one
(sub-)document, in traversal order.  The sequence depends only on the
document and the path prefix, never on the accumulator state. -/
def trace : JObj → String → List Op
  | JObj.nil, _ => []
  | JObj.cons key value rest, pre =>
    let field_key := pre ++ key
    (match value with
     | JValue.obj entries => trace entries (field_key ++ ".")
     | JValue.arr l =>
       Op.arrayObs field_key (jarrLen l) ::
         (match l with
          | JArr.cons (JValue.obj entries) _ => trace entries (field_key ++ "[0].")
          | _ => [])
     | JValue.str v => [Op.strObs field_key v]
     | other => [Op.otherObs field_key (pyStr other)]) ++ trace rest pre

/-- `analyze_json_file` walks each drug of the corpus in order (source
lines 32-33); this is the same fold used for multi-document claims. -/
def walk_docs (parse : String → Soup) (docs : List JObj) (s : State) : State :=
  docs.foldl (fun st d => analyze_drug parse d "" st) s

/-- A value of the structure tree built by `_build_structure_tree`: a
Python dict whose values are nested dicts, the string `'html'`/`'text'`
stored under `'type'`, or the integer stored under `'occurrences'`. -/
inductive PyVal where
  | dict : List (String × PyVal) → PyVal
  | str : String → PyVal
  | int : Nat → PyVal

/-- The leaf info dict `{'type': ..., 'occurrences': ...}` stored at the
last path segment (source lines 151-155). -/
def leafInfo (stats : FieldStats) : PyVal :=
  PyVal.dict [("type", PyVal.str (if stats.html_tags.isEmpty then "text" else "html")),
              ("occurrences", PyVal.int stats.count)]

/-- Python `field.split('.')` (source line 143), modeled directly on the
character list: split at every `'.'`, yielding `[""]` for the empty
string, exactly as `str.split` with an explicit separator does. -/
def splitDotAux : List Char → List Char → List String
  | [], acc => [String.mk acc.reverse]
  | c :: rest, acc =>
    if c = '.' then String.mk acc.reverse :: splitDotAux rest []
    else splitDotAux rest (c :: acc)

/-- Split a field path on the dot separator. -/
def splitDot (s : String) : List String :=
  splitDotAux s.data []

/-- The per-field insertion of `_build_structure_tree` (source lines
143-155): walk `parts[:-1]` creating empty dicts for missing segments and
descending into present ones, then assign the leaf info at the last
segment.  Descending into a value that is not a dict is a Python
`TypeError` (`current[part]` is then a `str` or `int`), modeled as `none`;
an empty parts list would be a Python `IndexError` on `parts[-1]`, also
`none` (it never arises: `split('.')` is never empty). -/
def insertPath : List (String × PyVal) → List String → PyVal → Option (List (String × PyVal))
  | _, [], _ => none
  | d, [leaf_name], info => some (pySet d leaf_name info)
  | d, part :: rest, info =>
    match pyGet d part with
    | none =>
      match insertPath [] rest info with
      | some sub => some (pySet d part (PyVal.dict sub))
      | none => none
    | some (PyVal.dict sub) =>
      match insertPath sub rest info with
      | some sub' => some (pySet d part (PyVal.dict sub'))
      | none => none
    | some _ => none

/-- Fold the accumulator collection into the structure tree in insertion
order (source line 142 iterates `self.field_stats.keys()`). -/
def build_tree_fold : List (String × FieldStats) → List (String × PyVal) → Option (List (String × PyVal))
  | [], tree => some tree
  | (field, stats) :: rest, tree =>
    match insertPath tree (splitDot field) (leafInfo stats) with
    | some tree' => build_tree_fold rest tree'
    | none => none

/-- `_build_structure_tree` (source lines 139-157). -/
def build_structure_tree (s : State) : Option (List (String × PyVal)) :=
  build_tree_fold s []

/-- Read the tree node at a path of segments (each step a dict lookup). -/
def followPath (d : List (String × PyVal)) : List String → Option PyVal
  | [] => some (PyVal.dict d)
  | [p] => pyGet d p
  | p :: rest =>
    match pyGet d p with
    | some (PyVal.dict sub) => followPath sub rest
    | _ => none

/-- ASCII lowercasing of one character, the effect of Python `str.lower`
on the ASCII field names this program handles. -/
def lowerChar : Char → Char
  | 'A' => 'a' | 'B' => 'b' | 'C' => 'c' | 'D' => 'd' | 'E' => 'e' | 'F' => 'f'
  | 'G' => 'g' | 'H' => 'h' | 'I' => 'i' | 'J' => 'j' | 'K' => 'k' | 'L' => 'l'
  | 'M' => 'm' | 'N' => 'n' | 'O' => 'o' | 'P' => 'p' | 'Q' => 'q' | 'R' => 'r'
  | 'S' => 's' | 'T' => 't' | 'U' => 'u' | 'V' => 'v' | 'W' => 'w' | 'X' => 'x'
  | 'Y' => 'y' | 'Z' => 'z'
  | c => c

/-- Python `field.lower()` (source line 133). -/
def pyLower (s : String) : String :=
  String.mk (s.data.map lowerChar)

/-- Substring containment on character lists (Python `needle in hay`). -/
def containsSub (needle : List Char) : List Char → Bool
  | [] => needle.isEmpty
  | c :: t => needle.isPrefixOf (c :: t) || containsSub needle t

/-- Python `keyword in field.lower()` substring test. -/
def strContains (hay needle : String) : Bool :=
  containsSub needle.data hay.data

/-- The fixed key-section keyword list (source lines 133-134). -/
def keywords : List String :=
  ["indication", "dosage", "warning", "adverse", "clinical"]

/-- Membership of a field path in `key_sections` (source lines 132-135). -/
def is_key_section (field : String) : Bool :=
  keywords.any (fun kw => strContains (pyLower field) kw)

/-- The per-field entry of `report['field_analysis']` (source lines
113-124): occurrences and max length copied, samples truncated to the
first 3, `is_html` iff the tag set is non-empty, and the two set-typed
fields converted to lists (`list(stats[...])`), which reads the set's
enumeration order verbatim; no ordering is applied. -/
structure FieldInfo where
  occurrences : Nat
  max_length : Nat
  samples : List String
  is_html : Bool
  html_tags : List String
  has_tables : Bool
  has_lists : Bool
  section_codes : List String
deriving DecidableEq

/-- Derivation of one `field_info` record from one accumulator. -/
def field_info_of (st : FieldStats) : FieldInfo :=
  { occurrences := st.count,
    max_length := st.max_length,
    samples := st.sample_values.take 3,
    is_html := !st.html_tags.isEmpty,
    html_tags := st.html_tags,
    has_tables := st.has_tables,
    has_lists := st.has_lists,
    section_codes := st.section_codes }

/-- The report of `_generate_report` (source lines 103-137). -/
structure Report where
  total_fields : Nat
  field_analysis : List (String × FieldInfo)
  html_fields : List String
  key_sections : List String
  data_structure : List (String × PyVal)

/-- `_generate_report` (source lines 103-137): `none` models the Python
`TypeError` raised when `_build_structure_tree` descends into a non-dict
(see `insertPath`); otherwise the report lists every field in insertion
order with its derived info, the markup-bearing fields, and the key
sections. -/
def generate_report (s : State) : Option Report :=
  match build_structure_tree s with
  | none => none
  | some tree =>
    some { total_fields := s.length,
           field_analysis := s.map (fun fs => (fs.1, field_info_of fs.2)),
           html_fields := (s.filter (fun fs => !fs.2.html_tags.isEmpty)).map (fun fs => fs.1),
           key_sections := (s.filter (fun fs => is_key_section fs.1)).map (fun fs => fs.1),
           data_structure := tree }

/-- The errors `analyze_json_file` can raise: a drug that is not a dict
(Python `AttributeError` on `.items()`, the "top-level value is neither
object nor array of objects" input error), or the structure-tree
`TypeError` of `generate_report`. -/
inductive AnalyzeErr where
  | inputError : AnalyzeErr
  | treeError : AnalyzeErr
deriving DecidableEq

/-- The `for drug in drugs` loop of `analyze_json_file` (source lines
32-35) followed by `_generate_report`.  The returned `State` is
`self.field_stats` after the call: on an error it retains every mutation
made before the failing element, because the exception propagates out of
the loop without any reset of the analyzer's accumulator. -/
def analyze_loop (parse : String → Soup) : JArr → State → State × Except AnalyzeErr Report
  | JArr.nil, s =>
    (s, match generate_report s with
        | some r => Except.ok r
        | none => Except.error AnalyzeErr.treeError)
  | JArr.cons d ds, s =>
    match d with
    | JValue.obj entries => analyze_loop parse ds (analyze_drug parse entries "" s)
    | _ => (s, Except.error AnalyzeErr.inputError)

/-- `analyze_json_file` (source lines 22-35), from the already-parsed JSON
value: a list is analyzed element by element, anything else is wrapped in
a one-element list (`drugs = data if isinstance(data, list) else [data]`). -/
def analyze_json_file (parse : String → Soup) (data : JValue) (s : State) : State × Except AnalyzeErr Report :=
  match data with
  | JValue.arr l => analyze_loop parse l s
  | _ => analyze_loop parse (JArr.cons data JArr.nil) s

/-- The lengths of the text values observed at field path `f` while
walking one document: the string observations of the walk's observation
sequence at that path, in order. -/
def observed_text_lens (o : JObj) (pre f : String) : List Nat :=
  (trace o pre).filterMap (fun op =>
    match op with
    | Op.strObs k v => if k = f then some v.length else none
    | _ => none)

/-- The number of observations at field path `f` in one document's walk:
each observation increments the field's `count` by exactly one. -/
def occurrences_in (o : JObj) (pre f : String) : Nat :=
  ((trace o pre).filter (fun op => opKey op = f)).length

/-- Reading a key after a write: the written key reads the new value,
every other key is untouched. -/
theorem pyGet_pySet {α : Type} (s : List (String × α)) (k : String) (v : α) (f : String) :
    pyGet (pySet s k v) f = if f = k then some v else pyGet s f := by
  induction s with
  | nil =>
    simp only [pySet, pyGet]
    by_cases h : k = f
    · simp [h]
    · simp [h, Ne.symm h]
  | cons hd tl ih =>
    obtain ⟨k0, w⟩ := hd
    simp only [pySet]
    by_cases hk : k0 = k
    · subst hk
      simp only [if_pos rfl, pyGet]
      by_cases hf : k0 = f
      · simp [hf]
      · simp [hf, Ne.symm hf]
    · simp only [if_neg hk, pyGet]
      by_cases hf : k0 = f
      · subst hf
        simp [hk]
      · simp [hf, ih]

/-- The stats read after one `defaultdict` mutation. -/
theorem getStats_updateStats (s : State) (k : String) (g : FieldStats → FieldStats) (f : String) :
    getStats (updateStats s k g) f = if f = k then g (getStats s k) else getStats s f := by
  simp only [getStats, updateStats, pyGet_pySet]
  by_cases h : f = k <;> simp [h]

theorem analyze_drug_nil (parse : String → Soup) (pre : String) (s : State) :
    analyze_drug parse JObj.nil pre s = s := rfl

theorem analyze_drug_cons_obj (parse : String → Soup) (key : String) (e rest : JObj) (pre : String) (s : State) :
    analyze_drug parse (JObj.cons key (JValue.obj e) rest) pre s
      = analyze_drug parse rest pre (analyze_drug parse e (pre ++ key ++ ".") s) := rfl

theorem analyze_drug_cons_str (parse : String → Soup) (key v : String) (rest : JObj) (pre : String) (s : State) :
    analyze_drug parse (JObj.cons key (JValue.str v) rest) pre s
      = analyze_drug parse rest pre (applyOp parse s (Op.strObs (pre ++ key) v)) := rfl

theorem analyze_drug_cons_num (parse : String → Soup) (key : String) (m : Int) (rest : JObj) (pre : String) (s : State) :
    analyze_drug parse (JObj.cons key (JValue.num m) rest) pre s
      = analyze_drug parse rest pre (applyOp parse s (Op.otherObs (pre ++ key) (pyStr (JValue.num m)))) := rfl

theorem analyze_drug_cons_bool (parse : String → Soup) (key : String) (b : Bool) (rest : JObj) (pre : String) (s : State) :
    analyze_drug parse (JObj.cons key (JValue.bool b) rest) pre s
      = analyze_drug parse rest pre (applyOp parse s (Op.otherObs (pre ++ key) (pyStr (JValue.bool b)))) := rfl

theorem analyze_drug_cons_null (parse : String → Soup) (key : String) (rest : JObj) (pre : String) (s : State) :
    analyze_drug parse (JObj.cons key JValue.null rest) pre s
      = analyze_drug parse rest pre (applyOp parse s (Op.otherObs (pre ++ key) (pyStr JValue.null))) := rfl

theorem analyze_drug_cons_arr_obj (parse : String → Soup) (key : String) (e : JObj) (t : JArr) (rest : JObj) (pre : String) (s : State) :
    analyze_drug parse (JObj.cons key (JValue.arr (JArr.cons (JValue.obj e) t)) rest) pre s
      = analyze_drug parse rest pre
          (analyze_drug parse e (pre ++ key ++ "[0].")
            (applyOp parse s (Op.arrayObs (pre ++ key) (jarrLen (JArr.cons (JValue.obj e) t))))) := rfl

theorem analyze_drug_cons_arr_nil (parse : String → Soup) (key : String) (rest : JObj) (pre : String) (s : State) :
    analyze_drug parse (JObj.cons key (JValue.arr JArr.nil) rest) pre s
      = analyze_drug parse rest pre (applyOp parse s (Op.arrayObs (pre ++ key) (jarrLen JArr.nil))) := rfl

theorem trace_nil (pre : String) : trace JObj.nil pre = [] := rfl

theorem trace_cons_obj (key : String) (e rest : JObj) (pre : String) :
    trace (JObj.cons key (JValue.obj e) rest) pre
      = trace e (pre ++ key ++ ".") ++ trace rest pre := rfl

theorem trace_cons_str (key v : String) (rest : JObj) (pre : String) :
    trace (JObj.cons key (JValue.str v) rest) pre
      = Op.strObs (pre ++ key) v :: trace rest pre := rfl

theorem trace_cons_arr_obj (key : String) (e : JObj) (t : JArr) (rest : JObj) (pre : String) :
    trace (JObj.cons key (JValue.arr (JArr.cons (JValue.obj e) t)) rest) pre
      = (Op.arrayObs (pre ++ key) (jarrLen (JArr.cons (JValue.obj e) t)) :: trace e (pre ++ key ++ "[0].")) ++ trace rest pre := rfl

theorem trace_cons_arr_nil (key : String) (rest : JObj) (pre : String) :
    trace (JObj.cons key (JValue.arr JArr.nil) rest) pre
      = Op.arrayObs (pre ++ key) (jarrLen JArr.nil) :: trace rest pre := rfl

theorem analyze_drug_cons_arr_arr (parse : String → Soup) (key : String) (l2 : JArr) (t : JArr) (rest : JObj) (pre : String) (s : State) :
    analyze_drug parse (JObj.cons key (JValue.arr (JArr.cons (JValue.arr l2) t)) rest) pre s
      = analyze_drug parse rest pre (applyOp parse s (Op.arrayObs (pre ++ key) (jarrLen (JArr.cons (JValue.arr l2) t)))) := rfl

theorem analyze_drug_cons_arr_str (parse : String → Soup) (key v : String) (t : JArr) (rest : JObj) (pre : String) (s : State) :
    analyze_drug parse (JObj.cons key (JValue.arr (JArr.cons (JValue.str v) t)) rest) pre s
      = analyze_drug parse rest pre (applyOp parse s (Op.arrayObs (pre ++ key) (jarrLen (JArr.cons (JValue.str v) t)))) := rfl

theorem analyze_drug_cons_arr_num (parse : String → Soup) (key : String) (m : Int) (t : JArr) (rest : JObj) (pre : String) (s : State) :
    analyze_drug parse (JObj.cons key (JValue.arr (JArr.cons (JValue.num m) t)) rest) pre s
      = analyze_drug parse rest pre (applyOp parse s (Op.arrayObs (pre ++ key) (jarrLen (JArr.cons (JValue.num m) t)))) := rfl

theorem analyze_drug_cons_arr_bool (parse : String → Soup) (key : String) (b : Bool) (t : JArr) (rest : JObj) (pre : String) (s : State) :
    analyze_drug parse (JObj.cons key (JValue.arr (JArr.cons (JValue.bool b) t)) rest) pre s
      = analyze_drug parse rest pre (applyOp parse s (Op.arrayObs (pre ++ key) (jarrLen (JArr.cons (JValue.bool b) t)))) := rfl

theorem analyze_drug_cons_arr_null (parse : String → Soup) (key : String) (t : JArr) (rest : JObj) (pre : String) (s : State) :
    analyze_drug parse (JObj.cons key (JValue.arr (JArr.cons JValue.null t)) rest) pre s
      = analyze_drug parse rest pre (applyOp parse s (Op.arrayObs (pre ++ key) (jarrLen (JArr.cons JValue.null t)))) := rfl

theorem trace_cons_num (key : String) (m : Int) (rest : JObj) (pre : String) :
    trace (JObj.cons key (JValue.num m) rest) pre
      = Op.otherObs (pre ++ key) (pyStr (JValue.num m)) :: trace rest pre := rfl

theorem trace_cons_bool (key : String) (b : Bool) (rest : JObj) (pre : String) :
    trace (JObj.cons key (JValue.bool b) rest) pre
      = Op.otherObs (pre ++ key) (pyStr (JValue.bool b)) :: trace rest pre := rfl

theorem trace_cons_null (key : String) (rest : JObj) (pre : String) :
    trace (JObj.cons key JValue.null rest) pre
      = Op.otherObs (pre ++ key) (pyStr JValue.null) :: trace rest pre := rfl

theorem trace_cons_arr_arr (key : String) (l2 t : JArr) (rest : JObj) (pre : String) :
    trace (JObj.cons key (JValue.arr (JArr.cons (JValue.arr l2) t)) rest) pre
      = Op.arrayObs (pre ++ key) (jarrLen (JArr.cons (JValue.arr l2) t)) :: trace rest pre := rfl

theorem trace_cons_arr_str (key v : String) (t : JArr) (rest : JObj) (pre : String) :
    trace (JObj.cons key (JValue.arr (JArr.cons (JValue.str v) t)) rest) pre
      = Op.arrayObs (pre ++ key) (jarrLen (JArr.cons (JValue.str v) t)) :: trace rest pre := rfl

theorem trace_cons_arr_num (key : String) (m : Int) (t : JArr) (rest : JObj) (pre : String) :
    trace (JObj.cons key (JValue.arr (JArr.cons (JValue.num m) t)) rest) pre
      = Op.arrayObs (pre ++ key) (jarrLen (JArr.cons (JValue.num m) t)) :: trace rest pre := rfl

theorem trace_cons_arr_bool (key : String) (b : Bool) (t : JArr) (rest : JObj) (pre : String) :
    trace (JObj.cons key (JValue.arr (JArr.cons (JValue.bool b) t)) rest) pre
      = Op.arrayObs (pre ++ key) (jarrLen (JArr.cons (JValue.bool b) t)) :: trace rest pre := rfl

theorem trace_cons_arr_null (key : String) (t : JArr) (rest : JObj) (pre : String) :
    trace (JObj.cons key (JValue.arr (JArr.cons JValue.null t)) rest) pre
      = Op.arrayObs (pre ++ key) (jarrLen (JArr.cons JValue.null t)) :: trace rest pre := rfl

theorem analyze_drug_eq_applyOps (parse : String → Soup) :
    ∀ (o : JObj) (pre : String) (s : State),
      analyze_drug parse o pre s = (trace o pre).foldl (applyOp parse) s := by
  suffices h : ∀ (n : Nat) (o : JObj), sizeOf o ≤ n → ∀ (pre : String) (s : State),
      analyze_drug parse o pre s = (trace o pre).foldl (applyOp parse) s by
    intro o pre s
    exact h (sizeOf o) o le_rfl pre s
  intro n
  induction n with
  | zero =>
    intro o h
    exfalso
    cases o <;> simp only [JObj.nil.sizeOf_spec, JObj.cons.sizeOf_spec] at h <;> omega
  | succ n ih =>
    intro o hsz pre s
    cases o with
    | nil =>
      rw [analyze_drug_nil, trace_nil]
      rfl
    | cons key value rest =>
      have hrest : sizeOf rest ≤ n := by
        simp only [JObj.cons.sizeOf_spec] at hsz
        omega
      cases value with
      | obj entries =>
        have he : sizeOf entries ≤ n := by
          simp only [JObj.cons.sizeOf_spec, JValue.obj.sizeOf_spec] at hsz
          omega
        rw [analyze_drug_cons_obj, ih entries he, ih rest hrest, trace_cons_obj,
          List.foldl_append]
      | arr l =>
        cases l with
        | nil =>
          rw [analyze_drug_cons_arr_nil, ih rest hrest, trace_cons_arr_nil, List.foldl_cons]
        | cons first t =>
          cases first with
          | obj entries =>
            have he : sizeOf entries ≤ n := by
              simp only [JObj.cons.sizeOf_spec, JValue.arr.sizeOf_spec, JArr.cons.sizeOf_spec,
                JValue.obj.sizeOf_spec] at hsz
              omega
            rw [analyze_drug_cons_arr_obj, ih entries he, ih rest hrest, trace_cons_arr_obj,
              List.foldl_append, List.foldl_cons]
          | arr l2 =>
            rw [analyze_drug_cons_arr_arr, ih rest hrest, trace_cons_arr_arr, List.foldl_cons]
          | str v =>
            rw [analyze_drug_cons_arr_str, ih rest hrest, trace_cons_arr_str, List.foldl_cons]
          | num m =>
            rw [analyze_drug_cons_arr_num, ih rest hrest, trace_cons_arr_num, List.foldl_cons]
          | bool b =>
            rw [analyze_drug_cons_arr_bool, ih rest hrest, trace_cons_arr_bool, List.foldl_cons]
          | null =>
            rw [analyze_drug_cons_arr_null, ih rest hrest, trace_cons_arr_null, List.foldl_cons]
      | str v =>
        rw [analyze_drug_cons_str, ih rest hrest, trace_cons_str, List.foldl_cons]
      | num m =>
        rw [analyze_drug_cons_num, ih rest hrest, trace_cons_num, List.foldl_cons]
      | bool b =>
        rw [analyze_drug_cons_bool, ih rest hrest, trace_cons_bool, List.foldl_cons]
      | null =>
        rw [analyze_drug_cons_null, ih rest hrest, trace_cons_null, List.foldl_cons]

/-- `_analyze_html_content` never touches a field's `count`. -/
theorem count_analyze_html_content (parse : String → Soup) (s : State) (k v f : String) :
    (getStats (analyze_html_content parse s k v) f).count = (getStats s f).count := by
  simp only [analyze_html_content]
  split <;> split <;> split <;>
    simp only [getStats_updateStats] <;> split <;> simp_all

/-- `_analyze_html_content` never touches a field's `max_length`. -/
theorem max_length_analyze_html_content (parse : String → Soup) (s : State) (k v f : String) :
    (getStats (analyze_html_content parse s k v) f).max_length = (getStats s f).max_length := by
  simp only [analyze_html_content]
  split <;> split <;> split <;>
    simp only [getStats_updateStats] <;> split <;> simp_all

/-- Every observation increments `count` of its own field key by exactly
one and leaves every other field's `count` unchanged. -/
theorem count_applyOp (parse : String → Soup) (s : State) (op : Op) (f : String) :
    (getStats (applyOp parse s op) f).count
      = (getStats s f).count + (if opKey op = f then 1 else 0) := by
  cases op with
  | arrayObs k n =>
    simp only [applyOp, opKey, getStats_updateStats]
    by_cases h : f = k
    · simp [h]
    · simp [h, Ne.symm h]
  | strObs k v =>
    simp only [applyOp, opKey]
    split
    · rw [count_analyze_html_content]
      simp only [getStats_updateStats]
      by_cases h : f = k
      · simp [h]
      · simp [h, Ne.symm h]
    · split <;> simp only [getStats_updateStats] <;> by_cases h : f = k
      · simp [h]
      · simp [h, Ne.symm h]
      · simp [h]
      · simp [h, Ne.symm h]
  | otherObs k r =>
    simp only [applyOp, opKey]
    split <;> simp only [getStats_updateStats] <;> by_cases h : f = k
    · simp [h]
    · simp [h, Ne.symm h]
    · simp [h]
    · simp [h, Ne.symm h]

/-- Folding a sequence of observations adds to each field's `count` the
number of observations at that field. -/
theorem count_foldl_applyOp (parse : String → Soup) (ops : List Op) :
    ∀ (s : State) (f : String),
      (getStats (ops.foldl (applyOp parse) s) f).count
        = (getStats s f).count + (ops.filter (fun op => opKey op = f)).length := by
  induction ops with
  | nil => intro s f; simp
  | cons op rest ih =>
    intro s f
    rw [List.foldl_cons, ih, count_applyOp]
    by_cases h : opKey op = f
    · simp [List.filter_cons, h]
      omega
    · simp [List.filter_cons, h]

/-- The accumulated `count` after one document's walk: the old `count`
plus the number of observations of that field in the walk. -/
theorem count_analyze_drug (parse : String → Soup) (o : JObj) (pre : String) (s : State) (f : String) :
    (getStats (analyze_drug parse o pre s) f).count
      = (getStats s f).count + occurrences_in o pre f := by
  rw [analyze_drug_eq_applyOps, count_foldl_applyOp]
  rfl

/-- Claim C2: walking a document twice on the same analyzer (starting
from the fresh, empty accumulator collection) and then building the
per-field report info yields exactly double the occurrence count of
walking it once, for every field path; there is no deduplication across
repeated documents. -/
theorem c2_walk_twice_doubles_counts (parse : String → Soup) (d : JObj) (f : String) :
    (getStats (analyze_drug parse d "" (analyze_drug parse d "" [])) f).count
      = 2 * (getStats (analyze_drug parse d "" []) f).count
    ∧ (field_info_of (getStats (analyze_drug parse d "" (analyze_drug parse d "" [])) f)).occurrences
      = 2 * (field_info_of (getStats (analyze_drug parse d "" []) f)).occurrences := by
  have h1 := count_analyze_drug parse d "" [] f
  have h2 := count_analyze_drug parse d "" (analyze_drug parse d "" []) f
  have h0 : (getStats [] f).count = 0 := rfl
  have hmain : (getStats (analyze_drug parse d "" (analyze_drug parse d "" [])) f).count
      = 2 * (getStats (analyze_drug parse d "" []) f).count := by omega
  exact ⟨hmain, by simpa [field_info_of] using hmain⟩

/-- The text length one observation contributes at field `f`: only a
string observation at `f` contributes. -/
def opTextLen (f : String) : Op → Option Nat
  | Op.strObs k v => if k = f then some v.length else none
  | _ => none

/-- The text lengths contributed at field `f` by a sequence of
observations. -/
def ops_text_lens (ops : List Op) (f : String) : List Nat :=
  ops.filterMap (opTextLen f)

/-- One observation's effect on a field's `max_length`: a string
observation at the field takes the max with the string's length; every
other observation leaves it unchanged. -/
theorem max_length_applyOp (parse : String → Soup) (s : State) (op : Op) (f : String) :
    (getStats (applyOp parse s op) f).max_length
      = List.foldl max ((getStats s f).max_length) (ops_text_lens [op] f) := by
  cases op with
  | arrayObs k n =>
    simp only [applyOp, getStats_updateStats, ops_text_lens, opTextLen, List.filterMap, List.foldl]
    by_cases h : f = k
    · simp [h]
    · simp [h, Ne.symm h]
  | strObs k v =>
    simp only [applyOp, ops_text_lens, opTextLen, List.filterMap]
    by_cases h : k = f
    · subst h
      simp only [if_pos rfl]
      split
      · rw [max_length_analyze_html_content]
        simp only [getStats_updateStats, if_pos rfl]
        simp
      · split <;> simp only [getStats_updateStats, if_pos rfl] <;> simp
    · simp only [if_neg h]
      split
      · rw [max_length_analyze_html_content]
        simp only [getStats_updateStats, if_neg (Ne.symm h)]
        simp
      · split <;> simp only [getStats_updateStats, if_neg (Ne.symm h)] <;> simp
  | otherObs k r =>
    simp only [applyOp, ops_text_lens, opTextLen, List.filterMap]
    split <;> simp only [getStats_updateStats] <;> by_cases h : f = k
    · simp [h]
    · simp [h, Ne.symm h]
    · simp [h]
    · simp [h, Ne.symm h]

/-- Folding a sequence of observations folds `max` over the text lengths
observed at each field. -/
theorem max_length_foldl_applyOp (parse : String → Soup) (ops : List Op) :
    ∀ (s : State) (f : String),
      (getStats (ops.foldl (applyOp parse) s) f).max_length
        = List.foldl max ((getStats s f).max_length) (ops_text_lens ops f) := by
  induction ops with
  | nil => intro s f; simp [ops_text_lens]
  | cons op rest ih =>
    intro s f
    have hsplit : ops_text_lens (op :: rest) f = ops_text_lens [op] f ++ ops_text_lens rest f := by
      simp only [ops_text_lens, List.filterMap_cons, List.filterMap_nil]
      cases opTextLen f op <;> simp
    rw [List.foldl_cons, ih, hsplit, List.foldl_append, ← max_length_applyOp]

/-- The accumulated `max_length` after one document's walk. -/
theorem max_length_analyze_drug (parse : String → Soup) (o : JObj) (pre : String) (s : State) (f : String) :
    (getStats (analyze_drug parse o pre s) f).max_length
      = List.foldl max ((getStats s f).max_length) (observed_text_lens o pre f) := by
  rw [analyze_drug_eq_applyOps, max_length_foldl_applyOp]
  rfl

/-- The text lengths observed at field `f` across a whole corpus walk, in
document order. -/
def observed_text_lens_docs : List JObj → String → List Nat
  | [], _ => []
  | d :: ds, f => observed_text_lens d "" f ++ observed_text_lens_docs ds f

/-- Folding `max` can only grow the initial value. -/
theorem le_foldl_max (l : List Nat) : ∀ (a : Nat), a ≤ List.foldl max a l := by
  induction l with
  | nil => intro a; exact le_rfl
  | cons x t ih =>
    intro a
    rw [List.foldl_cons]
    exact le_trans (le_max_left a x) (ih (max a x))

/-- The accumulated `max_length` after walking a corpus. -/
theorem max_length_walk_docs (parse : String → Soup) (docs : List JObj) :
    ∀ (s : State) (f : String),
      (getStats (walk_docs parse docs s) f).max_length
        = List.foldl max ((getStats s f).max_length) (observed_text_lens_docs docs f) := by
  induction docs with
  | nil => intro s f; rfl
  | cons d ds ih =>
    intro s f
    have hw : walk_docs parse (d :: ds) s = walk_docs parse ds (analyze_drug parse d "" s) := rfl
    rw [hw, ih, max_length_analyze_drug, observed_text_lens_docs, List.foldl_append]

/-- Claim C7: after walking any sequence of documents from the fresh
analyzer, each field's recorded `max_length` equals the fold of `max`
over the lengths of all text values observed at that path (hence `0` when
no text value was ever observed there), and `max_length` is non-decreasing
across the walk from any intermediate state. -/
theorem c7_max_length_is_true_max (parse : String → Soup) (docs : List JObj) (f : String) (s : State) :
    ((getStats (walk_docs parse docs []) f).max_length
        = List.foldl max 0 (observed_text_lens_docs docs f))
    ∧ (getStats s f).max_length ≤ (getStats (walk_docs parse docs s) f).max_length := by
  constructor
  · rw [max_length_walk_docs]
    rfl
  · rw [max_length_walk_docs]
    exact le_foldl_max _ _

/-- Reflexivity of the list-extension order. -/
theorem extRefl {α : Type} (l : List α) : l <+: l :=
  ⟨[], List.append_nil l⟩

/-- Transitivity of the list-extension order. -/
theorem extTrans {α : Type} {a b c : List α} (h1 : a <+: b) (h2 : b <+: c) : a <+: c := by
  obtain ⟨u, hu⟩ := h1
  obtain ⟨v, hv⟩ := h2
  exact ⟨u ++ v, by rw [← hv, ← hu, List.append_assoc]⟩

/-- `set.add` only ever appends: the old enumeration is a prefix of the
new one. -/
theorem ext_pyAdd (l : List String) (x : String) : l <+: pyAdd l x := by
  unfold pyAdd
  split
  · exact extRefl l
  · exact ⟨[x], rfl⟩

/-- Folding `set.add` over tag names only ever appends. -/
theorem ext_foldl_pyAdd_name (xs : List Element) :
    ∀ (l : List String), l <+: xs.foldl (fun acc e => pyAdd acc e.name) l := by
  induction xs with
  | nil => intro l; exact extRefl l
  | cons x t ih =>
    intro l
    rw [List.foldl_cons]
    exact extTrans (ext_pyAdd l x.name) (ih (pyAdd l x.name))

/-- Folding `set.add` over section codes only ever appends. -/
theorem ext_foldl_pyAdd (xs : List String) :
    ∀ (l : List String), l <+: xs.foldl pyAdd l := by
  induction xs with
  | nil => intro l; exact extRefl l
  | cons x t ih =>
    intro l
    rw [List.foldl_cons]
    exact extTrans (ext_pyAdd l x) (ih (pyAdd l x))

/-- The monotone-growth relation on one field's stats: the flags can only
go from false to true, and the two set enumerations can only be extended
at the end. -/
def statLE (a b : FieldStats) : Prop :=
  (a.has_tables ≤ b.has_tables) ∧ (a.has_lists ≤ b.has_lists)
    ∧ (a.html_tags <+: b.html_tags) ∧ (a.section_codes <+: b.section_codes)

theorem statLE_refl (a : FieldStats) : statLE a a :=
  ⟨le_rfl, le_rfl, extRefl _, extRefl _⟩

theorem statLE_trans {a b c : FieldStats} (h1 : statLE a b) (h2 : statLE b c) : statLE a c :=
  ⟨le_trans h1.1 h2.1, le_trans h1.2.1 h2.2.1,
   extTrans h1.2.2.1 h2.2.2.1, extTrans h1.2.2.2 h2.2.2.2⟩

/-- A `defaultdict` mutation whose update is pointwise monotone is
monotone on every field's stats. -/
theorem statLE_updateStats (s : State) (k : String) (g : FieldStats → FieldStats) (f : String)
    (hg : ∀ st, statLE st (g st)) :
    statLE (getStats s f) (getStats (updateStats s k g) f) := by
  rw [getStats_updateStats]
  by_cases h : f = k
  · subst h
    rw [if_pos rfl]
    exact hg _
  · rw [if_neg h]
    exact statLE_refl _

/-- A conditional monotone mutation is monotone. -/
theorem statLE_ite (s : State) (k : String) (c : Prop) [Decidable c] (g : FieldStats → FieldStats) (f : String)
    (hg : ∀ st, statLE st (g st)) :
    statLE (getStats s f) (getStats (if c then updateStats s k g else s) f) := by
  split
  · exact statLE_updateStats s k g f hg
  · exact statLE_refl _

/-- `_analyze_html_content` is monotone on the flags and the sets: flags
are only ever set to true, sets only ever appended to. -/
theorem statLE_analyze_html_content (parse : String → Soup) (s : State) (k v f : String) :
    statLE (getStats s f) (getStats (analyze_html_content parse s k v) f) := by
  simp only [analyze_html_content]
  refine statLE_trans (statLE_trans (statLE_trans (statLE_trans
    (statLE_ite s k _ _ f ?_) (statLE_updateStats _ k _ f ?_))
    (statLE_ite _ k _ _ f ?_)) (statLE_ite _ k _ _ f ?_))
    (statLE_updateStats _ k _ f ?_)
  · intro st
    exact statLE_refl _
  · intro st
    exact ⟨le_rfl, le_rfl, ext_foldl_pyAdd_name _ _, extRefl _⟩
  · intro st
    exact ⟨Bool.le_true _, le_rfl, extRefl _, extRefl _⟩
  · intro st
    exact ⟨le_rfl, Bool.le_true _, extRefl _, extRefl _⟩
  · intro st
    exact ⟨le_rfl, le_rfl, extRefl _, ext_foldl_pyAdd _ _⟩

/-- Every single observation is monotone on every field's flags and sets. -/
theorem statLE_applyOp (parse : String → Soup) (s : State) (op : Op) (f : String) :
    statLE (getStats s f) (getStats (applyOp parse s op) f) := by
  cases op with
  | arrayObs k n =>
    simp only [applyOp]
    exact statLE_updateStats s k _ f (fun st => statLE_refl _)
  | strObs k v =>
    simp only [applyOp]
    refine statLE_trans (statLE_updateStats s k
      (fun st => { st with count := st.count + 1 }) f (fun st => statLE_refl _)) ?_
    refine statLE_trans (statLE_updateStats _ k
      (fun st => { st with max_length := max st.max_length v.length }) f (fun st => statLE_refl _)) ?_
    split
    · exact statLE_analyze_html_content parse _ k v f
    · split
      · exact statLE_updateStats _ k _ f (fun st => statLE_refl _)
      · exact statLE_refl _
  | otherObs k r =>
    simp only [applyOp]
    refine statLE_trans (statLE_updateStats s k
      (fun st => { st with count := st.count + 1 }) f (fun st => statLE_refl _)) ?_
    split
    · exact statLE_updateStats _ k _ f (fun st => statLE_refl _)
    · exact statLE_refl _

/-- A sequence of observations is monotone on every field's flags and sets. -/
theorem statLE_foldl_applyOp (parse : String → Soup) (ops : List Op) :
    ∀ (s : State) (f : String), statLE (getStats s f) (getStats (ops.foldl (applyOp parse) s) f) := by
  induction ops with
  | nil => intro s f; exact statLE_refl _
  | cons op rest ih =>
    intro s f
    rw [List.foldl_cons]
    exact statLE_trans (statLE_applyOp parse s op f) (ih _ f)

/-- One document's walk is monotone on every field's flags and sets. -/
theorem statLE_analyze_drug (parse : String → Soup) (o : JObj) (pre : String) (s : State) (f : String) :
    statLE (getStats s f) (getStats (analyze_drug parse o pre s) f) := by
  rw [analyze_drug_eq_applyOps]
  exact statLE_foldl_applyOp parse _ s f

/-- A corpus walk is monotone on every field's flags and sets. -/
theorem statLE_walk_docs (parse : String → Soup) (docs : List JObj) :
    ∀ (s : State) (f : String), statLE (getStats s f) (getStats (walk_docs parse docs s) f) := by
  induction docs with
  | nil => intro s f; exact statLE_refl _
  | cons d ds ih =>
    intro s f
    exact statLE_trans (statLE_analyze_drug parse d "" s f) (ih _ f)

/-- Claim C3: across any sequence of further observations (any corpus of
documents walked from any accumulator state), a field's `has_tables` and
`has_lists` flags never revert from true to false (Bool order), and its
markup-tag and section-code enumerations are only ever extended at the
end (the old list is a prefix of the new one), so neither set ever loses
an element. -/
theorem c3_flags_and_sets_monotone (parse : String → Soup) (docs : List JObj) (s : State) (f : String) :
    ((getStats s f).has_tables ≤ (getStats (walk_docs parse docs s) f).has_tables)
    ∧ ((getStats s f).has_lists ≤ (getStats (walk_docs parse docs s) f).has_lists)
    ∧ ((getStats s f).html_tags <+: (getStats (walk_docs parse docs s) f).html_tags)
    ∧ ((getStats s f).section_codes <+: (getStats (walk_docs parse docs s) f).section_codes) :=
  statLE_walk_docs parse docs s f

/-- The document with one field holding an empty array. -/
def arrayDoc : JObj := JObj.cons "a" (JValue.arr JArr.nil) JObj.nil

/-- Claim C1, counterexample: the array branch of `_analyze_drug` (line
48) appends its `[Array with N items]` sample unconditionally, with no
fewer-than-3 guard, so after observing the same array-valued field four
times the accumulator's sample list has length 4 > 3. -/
theorem c1_counterexample :
    (getStats (walk_docs emptyParse [arrayDoc, arrayDoc, arrayDoc, arrayDoc] []) "a").sample_values
      = ["[Array with 0 items]", "[Array with 0 items]", "[Array with 0 items]", "[Array with 0 items]"]
    ∧ ¬ ((getStats (walk_docs emptyParse [arrayDoc, arrayDoc, arrayDoc, arrayDoc] []) "a").sample_values.length ≤ 3) := by
  constructor
  · rfl
  · decide

/-- Claim C1, amended: the report's per-field `samples` list (truncated
with `[:3]` in `_generate_report`, line 118) never exceeds length 3, for
every accumulator state; the internal accumulator list itself is
unbounded for repeatedly-observed array fields. -/
theorem c1_amended_report_samples_le_three (s : State) (r : Report)
    (h : generate_report s = some r) (p : String × FieldInfo) (hp : p ∈ r.field_analysis) :
    p.2.samples.length ≤ 3 := by
  simp only [generate_report] at h
  cases hb : build_structure_tree s with
  | none =>
    rw [hb] at h
    exact absurd h (by simp)
  | some tree =>
    rw [hb] at h
    have hr : r.field_analysis = s.map (fun fs => (fs.1, field_info_of fs.2)) := by
      cases h
      rfl
    rw [hr] at hp
    obtain ⟨fs, _, hfs⟩ := List.mem_map.mp hp
    rw [← hfs]
    simp only [field_info_of, List.length_take]
    exact min_le_left _ _

/-- A stats record carrying five retained samples. -/
def c1Stats : FieldStats :=
  { count := 5, sample_values := ["s1", "s2", "s3", "s4", "s5"], html_tags := [],
    max_length := 2, has_tables := false, has_lists := false, section_codes := [] }

/-- Witness for the amended C1 bound at a concrete over-full accumulator. -/
theorem c1_amended_witness :
    (("a", field_info_of c1Stats) : String × FieldInfo).2.samples.length ≤ 3 :=
  c1_amended_report_samples_le_three [("a", c1Stats)] _ rfl
    ("a", field_info_of c1Stats) (List.mem_cons_self _ _)

/-- The scenario document of claim C8. -/
def itemsDoc : JObj :=
  JObj.cons "items"
    (JValue.arr (JArr.cons (JValue.obj (JObj.cons "x" (JValue.num 1) JObj.nil))
      (JArr.cons (JValue.obj (JObj.cons "x" (JValue.num 2) JObj.nil)) JArr.nil)))
    JObj.nil

/-- The stats accumulated at `items` in the C8 scenario. -/
def itemsStats : FieldStats :=
  { count := 1, sample_values := ["[Array with 2 items]"], html_tags := [],
    max_length := 0, has_tables := false, has_lists := false, section_codes := [] }

/-- The stats accumulated at `items[0].x` in the C8 scenario. -/
def itemsXStats : FieldStats :=
  { count := 1, sample_values := ["1"], html_tags := [],
    max_length := 0, has_tables := false, has_lists := false, section_codes := [] }

/-- Claim C8: walking the single document with `items` mapped to the
two-element array of objects, from the empty accumulator collection,
creates exactly the two accumulators `items` (count 1, array sample) and
`items[0].x` (count 1, sample "1"); the second array element is never
visited and contributes nothing (the final state holds nothing else). -/
theorem c8_items_scenario (parse : String → Soup) :
    analyze_drug parse itemsDoc "" [] = [("items", itemsStats), ("items[0].x", itemsXStats)] :=
  rfl

/-- Claim C6: a non-markup string observation with room among the three
retained samples stores exactly the value truncated to its first 100
characters with an `...` suffix when it is longer than 100 characters,
and the value itself otherwise. -/
theorem c6_plain_text_sample (parse : String → Soup) (k v pre : String) (s : State)
    (hhtml : is_html v = false)
    (hlen : (getStats s (pre ++ k)).sample_values.length < 3) :
    (getStats (analyze_drug parse (JObj.cons k (JValue.str v) JObj.nil) pre s) (pre ++ k)).sample_values
      = (getStats s (pre ++ k)).sample_values
        ++ [if v.length > 100 then v.take 100 ++ "..." else v] := by
  rw [analyze_drug_cons_str, analyze_drug_nil]
  simp only [applyOp, hhtml, Bool.false_eq_true, if_false]
  have h2 : (getStats (updateStats (updateStats s (pre ++ k)
        (fun st => { st with count := st.count + 1 })) (pre ++ k)
        (fun st => { st with max_length := max st.max_length v.length })) (pre ++ k)).sample_values
      = (getStats s (pre ++ k)).sample_values := by
    simp [getStats_updateStats]
  split
  · simp [getStats_updateStats]
  · rename_i hguard
    rw [h2] at hguard
    exact absurd hlen hguard

/-- A 105-character non-markup text value. -/
def c6Text : String :=
  "aaaaaaaaaaaaaaaaaaaaaaaaaaaaaaaaaaaaaaaaaaaaaaaaaaaaaaaaaaaaaaaaaaaaaaaaaaaaaaaaaaaaaaaaaaaaaaaaaaaaaaa"

/-- Witness for C6 at a concrete 105-character value: the stored sample
is the first 100 characters followed by an ellipsis. -/
theorem c6_plain_text_sample_witness :
    is_html c6Text = false
    ∧ (getStats [] ("" ++ "notes")).sample_values.length < 3
    ∧ (getStats (analyze_drug emptyParse (JObj.cons "notes" (JValue.str c6Text) JObj.nil) "" [])
          ("" ++ "notes")).sample_values
        = (getStats [] ("" ++ "notes")).sample_values
          ++ [if c6Text.length > 100 then c6Text.take 100 ++ "..." else c6Text] :=
  ⟨by decide, by decide,
    c6_plain_text_sample emptyParse "notes" c6Text "" [] (by decide) (by decide)⟩

/-- Claim C10: a text value that matches the markup heuristic but whose
parse yields zero elements still increments the field's count and updates
its max length; it stores no plain-text sample — only the `[HTML] `
preview, and only when the field had no sample yet; the tag set, both
flags and the section codes are unchanged, and when the tag set was empty
it stays empty, so the report classifies the field as not markup. -/
theorem c10_markup_without_elements (parse : String → Soup) (k v pre : String) (s : State)
    (hhtml : is_html v = true) (helems : (parse v).elements = []) :
    ((getStats (analyze_drug parse (JObj.cons k (JValue.str v) JObj.nil) pre s) (pre ++ k)).count
        = (getStats s (pre ++ k)).count + 1)
    ∧ ((getStats (analyze_drug parse (JObj.cons k (JValue.str v) JObj.nil) pre s) (pre ++ k)).max_length
        = max (getStats s (pre ++ k)).max_length v.length)
    ∧ ((getStats (analyze_drug parse (JObj.cons k (JValue.str v) JObj.nil) pre s) (pre ++ k)).sample_values
        = if (getStats s (pre ++ k)).sample_values.length < 1 then
            (getStats s (pre ++ k)).sample_values
              ++ ["[HTML] " ++ (parse v).textContent.take 200 ++ "..."]
          else (getStats s (pre ++ k)).sample_values)
    ∧ ((getStats (analyze_drug parse (JObj.cons k (JValue.str v) JObj.nil) pre s) (pre ++ k)).html_tags
        = (getStats s (pre ++ k)).html_tags)
    ∧ ((getStats (analyze_drug parse (JObj.cons k (JValue.str v) JObj.nil) pre s) (pre ++ k)).has_tables
        = (getStats s (pre ++ k)).has_tables)
    ∧ ((getStats (analyze_drug parse (JObj.cons k (JValue.str v) JObj.nil) pre s) (pre ++ k)).has_lists
        = (getStats s (pre ++ k)).has_lists)
    ∧ ((getStats (analyze_drug parse (JObj.cons k (JValue.str v) JObj.nil) pre s) (pre ++ k)).section_codes
        = (getStats s (pre ++ k)).section_codes)
    ∧ ((getStats s (pre ++ k)).html_tags = [] →
        (field_info_of (getStats (analyze_drug parse (JObj.cons k (JValue.str v) JObj.nil) pre s) (pre ++ k))).is_html
          = false) := by
  rw [analyze_drug_cons_str, analyze_drug_nil]
  simp only [applyOp, hhtml, if_true, analyze_html_content, helems]
  simp only [List.foldl_nil, List.any_nil, List.filterMap_nil, Bool.false_eq_true, if_false]
  by_cases hsample : (getStats s (pre ++ k)).sample_values = []
  · simp [hsample, getStats_updateStats, field_info_of]
  · simp [hsample, getStats_updateStats, field_info_of]

/-- Witness for C10 at the concrete value `"< a >"`: it matches the
`<[^>]+>` heuristic, parses (under `emptyParse`) to zero elements, and
the count is still incremented. -/
theorem c10_markup_without_elements_witness :
    is_html "< a >" = true
    ∧ (emptyParse "< a >").elements = []
    ∧ (getStats (analyze_drug emptyParse (JObj.cons "w" (JValue.str "< a >") JObj.nil) "" [])
          ("" ++ "w")).count
        = (getStats [] ("" ++ "w")).count + 1 :=
  ⟨by decide, rfl,
    (c10_markup_without_elements emptyParse "w" "< a >" "" [] (by decide) rfl).1⟩

/-- Python `isinstance(value, dict)` on a JSON value. -/
def isObjV : JValue → Bool
  | JValue.obj _ => true
  | _ => false

/-- Python `isinstance(value, list)` on a JSON value. -/
def isArrV : JValue → Bool
  | JValue.arr _ => true
  | _ => false

/-- List of documents as a JSON array of objects. -/
def jarrOfDocs : List JObj → JArr
  | [] => JArr.nil
  | d :: ds => JArr.cons (JValue.obj d) (jarrOfDocs ds)

/-- Concatenation of JSON arrays. -/
def jarrApp : JArr → JArr → JArr
  | JArr.nil, t => t
  | JArr.cons v r, t => JArr.cons v (jarrApp r t)

/-- The analysis loop walks a prefix of well-formed documents before
reaching the rest of the array. -/
theorem analyze_loop_app (parse : String → Soup) (docs : List JObj) :
    ∀ (s : State) (rest : JArr),
      analyze_loop parse (jarrApp (jarrOfDocs docs) rest) s
        = analyze_loop parse rest (walk_docs parse docs s) := by
  induction docs with
  | nil => intro s rest; rfl
  | cons d ds ih =>
    intro s rest
    exact ih (analyze_drug parse d "" s) rest

/-- Claim C5, amended: when the top-level value is neither an object nor
an array, the error propagates immediately with no report and the
accumulator collection is untouched; but when the top-level value is an
array whose first non-object element follows some well-formed documents,
the error still propagates with no report while the accumulator retains
every mutation made by the documents walked before the failing element
(partial accumulation is NOT discarded in that case). -/
theorem c5_amended_input_error (parse : String → Soup) (s : State) :
    (∀ (v : JValue), isObjV v = false → isArrV v = false →
      analyze_json_file parse v s = (s, Except.error AnalyzeErr.inputError))
    ∧ (∀ (docs : List JObj) (bad : JValue) (t : JArr), isObjV bad = false →
      analyze_json_file parse (JValue.arr (jarrApp (jarrOfDocs docs) (JArr.cons bad t))) s
        = (walk_docs parse docs s, Except.error AnalyzeErr.inputError)) := by
  constructor
  · intro v h1 h2
    cases v with
    | obj e => simp [isObjV] at h1
    | arr l => simp [isArrV] at h2
    | str v => rfl
    | num m => rfl
    | bool b => rfl
    | null => rfl
  · intro docs bad t hbad
    have hfile : analyze_json_file parse (JValue.arr (jarrApp (jarrOfDocs docs) (JArr.cons bad t))) s
        = analyze_loop parse (jarrApp (jarrOfDocs docs) (JArr.cons bad t)) s := rfl
    rw [hfile, analyze_loop_app]
    cases bad with
    | obj e => simp [isObjV] at hbad
    | arr l => rfl
    | str v => rfl
    | num m => rfl
    | bool b => rfl
    | null => rfl

/-- The C5 counterexample input: an array whose first element is a valid
drug object and whose second element is the number 5. -/
def c5BadData : JValue :=
  JValue.arr (JArr.cons (JValue.obj (JObj.cons "a" (JValue.str "x") JObj.nil))
    (JArr.cons (JValue.num 5) JArr.nil))

/-- The stats the first element of `c5BadData` leaves behind. -/
def c5PartialStats : FieldStats :=
  { count := 1, sample_values := ["x"], html_tags := [],
    max_length := 1, has_tables := false, has_lists := false, section_codes := [] }

/-- Claim C5, counterexample: analyzing `[{"a": "x"}, 5]` raises the
input error with no report, but the accumulator collection afterwards
still holds the entry accumulated for field `a` by the first element; it
is not restored to the empty collection the analysis started from. -/
theorem c5_counterexample :
    analyze_json_file emptyParse c5BadData []
        = ([("a", c5PartialStats)], Except.error AnalyzeErr.inputError)
    ∧ (analyze_json_file emptyParse c5BadData []).1 ≠ ([] : State) := by
  constructor
  · rfl
  · decide

/-- Witness for the amended C5 at concrete inputs: a bare string as
top-level value leaves the state untouched, and the array `[{"a":"x"}, 5]`
fails while keeping the partial state of its first element. -/
theorem c5_amended_input_error_witness :
    isObjV (JValue.str "oops") = false
    ∧ isArrV (JValue.str "oops") = false
    ∧ analyze_json_file emptyParse (JValue.str "oops") []
        = (([] : State), Except.error AnalyzeErr.inputError)
    ∧ analyze_json_file emptyParse
        (JValue.arr (jarrApp (jarrOfDocs [JObj.cons "a" (JValue.str "x") JObj.nil])
          (JArr.cons (JValue.num 5) JArr.nil))) []
        = (walk_docs emptyParse [JObj.cons "a" (JValue.str "x") JObj.nil] [],
           Except.error AnalyzeErr.inputError) :=
  ⟨rfl, rfl,
    (c5_amended_input_error emptyParse []).1 (JValue.str "oops") rfl rfl,
    (c5_amended_input_error emptyParse []).2 [JObj.cons "a" (JValue.str "x") JObj.nil]
      (JValue.num 5) JArr.nil rfl⟩

/-- Looking a field up in the report's `field_analysis` is looking it up
in the accumulator collection and deriving its info record. -/
theorem pyGet_map_field_info (s : State) (f : String) :
    pyGet (s.map (fun fs => (fs.1, field_info_of fs.2))) f = (pyGet s f).map field_info_of := by
  induction s with
  | nil => rfl
  | cons hd tl ih =>
    obtain ⟨k, st⟩ := hd
    simp only [List.map_cons, pyGet]
    by_cases h : k = f
    · simp [h]
    · simp [h, ih]

/-- Claim C9, amended: `_generate_report` serializes the per-field tag
set and section-code set to lists in the internal container's enumeration
order, verbatim (`list(...)` applies no ordering): the report entry of a
field is exactly `field_info_of` of its accumulator, whose `html_tags`
and `section_codes` lists are the accumulator's enumerations unchanged.
No lexicographic (or any other) sort is performed at serialization time. -/
theorem c9_amended_serialization_is_enumeration_order (s : State) (r : Report) (f : String) (st : FieldStats)
    (hr : generate_report s = some r) (hs : pyGet s f = some st) :
    pyGet r.field_analysis f = some (field_info_of st)
    ∧ (field_info_of st).html_tags = st.html_tags
    ∧ (field_info_of st).section_codes = st.section_codes := by
  refine ⟨?_, rfl, rfl⟩
  simp only [generate_report] at hr
  cases hb : build_structure_tree s with
  | none =>
    rw [hb] at hr
    exact absurd hr (by simp)
  | some tree =>
    rw [hb] at hr
    have hfa : r.field_analysis = s.map (fun fs => (fs.1, field_info_of fs.2)) := by
      cases hr
      rfl
    rw [hfa, pyGet_map_field_info, hs]
    rfl

/-- Lexicographic (by character code) comparison of two strings, the
ordering named by the specification for serialized set output. -/
def lexLeChars : List Char → List Char → Bool
  | [], _ => true
  | _ :: _, [] => false
  | a :: as, b :: bs =>
    if a.toNat < b.toNat then true
    else if b.toNat < a.toNat then false
    else lexLeChars as bs

/-- String comparison in lexicographic order. -/
def lexLeStr (a b : String) : Bool := lexLeChars a.data b.data

/-- Whether a list of strings is in (non-strict) lexicographic order. -/
def lexSorted : List String → Bool
  | [] => true
  | [_] => true
  | a :: b :: t => lexLeStr a b && lexSorted (b :: t)

/-- A parse function returning the elements `ul`, `b` in document order
(the `find_all()` order for `<ul><b>x</b></ul>`). -/
def c9Parse : String → Soup := fun _ =>
  { elements := [{ name := "ul", sectioncode := none }, { name := "b", sectioncode := none }],
    textContent := "x" }

/-- The C9 scenario document. -/
def c9Doc : JObj := JObj.cons "f" (JValue.str "<ul><b>x</b></ul>") JObj.nil

/-- Claim C9, counterexample: the report serializes the tag set of field
`f` as `["ul", "b"]`, the enumeration order of the container, which is
not lexicographically sorted (`"ul" > "b"`); no deterministic
lexicographic ordering is applied at serialization time. -/
theorem c9_counterexample :
    ((generate_report (analyze_drug c9Parse c9Doc "" [])).bind
        (fun r => pyGet r.field_analysis "f")).map (fun i => i.html_tags)
      = some ["ul", "b"]
    ∧ lexSorted ["ul", "b"] = false := by
  constructor
  · rfl
  · decide

/-- The accumulator used by the C9 witness: tags enumerated `ul, b`. -/
def c9Stats : FieldStats :=
  { count := 1, sample_values := [], html_tags := ["ul", "b"],
    max_length := 17, has_tables := false, has_lists := true, section_codes := [] }

/-- Witness for the amended C9 at a concrete one-field collection. -/
theorem c9_amended_witness :
    pyGet [("f", c9Stats)] "f" = some c9Stats
    ∧ pyGet ((Report.field_analysis ((generate_report [("f", c9Stats)]).getD
        { total_fields := 0, field_analysis := [], html_fields := [], key_sections := [],
          data_structure := [] })) : List (String × FieldInfo)) "f" = some (field_info_of c9Stats) :=
  ⟨rfl, (c9_amended_serialization_is_enumeration_order [("f", c9Stats)] _ "f" c9Stats rfl rfl).1⟩

/-- Inserting a non-empty path into the empty dict always succeeds (fresh
branches are created all the way down). -/
theorem exists_insertPath_nil :
    ∀ (parts : List String), parts ≠ [] → ∀ (info : PyVal),
      ∃ d, insertPath [] parts info = some d := by
  intro parts
  induction parts with
  | nil => intro h; exact absurd rfl h
  | cons p rest ih =>
    intro _ info
    cases rest with
    | nil => exact ⟨pySet [] p info, rfl⟩
    | cons q rest' =>
      obtain ⟨sub, hsub⟩ := ih (by simp) info
      refine ⟨pySet [] p (PyVal.dict sub), ?_⟩
      simp only [insertPath, pyGet, hsub]

/-- Inserting a leaf at path `P` into the empty tree and then inserting a
second entry at the strictly deeper path `P ++ s0 :: S'` never loses the
leaf's info when the first extra segment `s0` avoids the two leaf-info
keys: the node at `P` still carries the leaf's `type` classification and
occurrence count. -/
theorem insert_leaf_then_deeper :
    ∀ (P : List String), P ≠ [] → ∀ (s0 : String) (S' : List String) (st1 : FieldStats) (info2 : PyVal),
      s0 ≠ "type" → s0 ≠ "occurrences" →
      ∃ d1 d2 entries,
        insertPath [] P (leafInfo st1) = some d1
        ∧ insertPath d1 (P ++ s0 :: S') info2 = some d2
        ∧ followPath d2 P = some (PyVal.dict entries)
        ∧ pyGet entries "type" = some (PyVal.str (if st1.html_tags.isEmpty then "text" else "html"))
        ∧ pyGet entries "occurrences" = some (PyVal.int st1.count) := by
  intro P
  induction P with
  | nil => intro h; exact absurd rfl h
  | cons p P' ih =>
    intro _ s0 S' st1 info2 h0 h1
    cases P' with
    | nil =>
      have hLty : pyGet [("type", PyVal.str (if st1.html_tags.isEmpty then "text" else "html")),
          ("occurrences", PyVal.int st1.count)] s0 = none := by
        simp [pyGet, Ne.symm h0, Ne.symm h1]
      cases S' with
      | nil =>
        refine ⟨[(p, leafInfo st1)],
          pySet [(p, leafInfo st1)] p (PyVal.dict (pySet [("type", PyVal.str (if st1.html_tags.isEmpty then "text" else "html")), ("occurrences", PyVal.int st1.count)] s0 info2)),
          pySet [("type", PyVal.str (if st1.html_tags.isEmpty then "text" else "html")), ("occurrences", PyVal.int st1.count)] s0 info2,
          rfl, ?_, ?_, ?_, ?_⟩
        · simp [insertPath, pyGet, leafInfo]
        · simp [followPath, pyGet_pySet, leafInfo]
        · rw [pyGet_pySet, if_neg (Ne.symm h0)]
          simp [pyGet]
        · rw [pyGet_pySet, if_neg (Ne.symm h1)]
          simp [pyGet, Ne.symm h1]
      | cons q S'' =>
        obtain ⟨sub, hsub⟩ := exists_insertPath_nil (q :: S'') (by simp) info2
        refine ⟨[(p, leafInfo st1)],
          pySet [(p, leafInfo st1)] p (PyVal.dict (pySet [("type", PyVal.str (if st1.html_tags.isEmpty then "text" else "html")), ("occurrences", PyVal.int st1.count)] s0 (PyVal.dict sub))),
          pySet [("type", PyVal.str (if st1.html_tags.isEmpty then "text" else "html")), ("occurrences", PyVal.int st1.count)] s0 (PyVal.dict sub),
          rfl, ?_, ?_, ?_, ?_⟩
        · simp [insertPath, pyGet, leafInfo, hsub, Ne.symm h0, Ne.symm h1]
        · simp [followPath, pyGet_pySet, leafInfo]
        · rw [pyGet_pySet, if_neg (Ne.symm h0)]
          simp [pyGet]
        · rw [pyGet_pySet, if_neg (Ne.symm h1)]
          simp [pyGet, Ne.symm h1]
    | cons q P'' =>
      obtain ⟨d1', d2', entries', h1', h2', h3', h4', h5'⟩ :=
        ih (by simp) s0 S' st1 info2 h0 h1
      refine ⟨[(p, PyVal.dict d1')], [(p, PyVal.dict d2')], entries', ?_, ?_, ?_, h4', h5'⟩
      · simp [insertPath, pyGet, pySet, h1']
      · have happ : ((q :: P'') ++ s0 :: S') = q :: (P'' ++ s0 :: S') := rfl
        rw [happ] at h2'
        simp [insertPath, pyGet, pySet, h2']
      · simp [followPath, pyGet, h3']

/-- Inserting an entry at the deeper path `P ++ S` into the empty tree
first, and then inserting a leaf at the prefix path `P`, replaces the
branch at `P` wholesale: the node at `P` carries exactly the leaf's
`type` classification and occurrence count (the deeper entry's info is
what gets lost, not the leaf's). -/
theorem insert_branch_then_leaf :
    ∀ (P : List String), P ≠ [] → ∀ (S : List String), S ≠ [] → ∀ (st1 : FieldStats) (info2 : PyVal),
      ∃ d1 d2 entries,
        insertPath [] (P ++ S) info2 = some d1
        ∧ insertPath d1 P (leafInfo st1) = some d2
        ∧ followPath d2 P = some (PyVal.dict entries)
        ∧ pyGet entries "type" = some (PyVal.str (if st1.html_tags.isEmpty then "text" else "html"))
        ∧ pyGet entries "occurrences" = some (PyVal.int st1.count) := by
  intro P
  induction P with
  | nil => intro h; exact absurd rfl h
  | cons p P' ih =>
    intro _ S hS st1 info2
    cases P' with
    | nil =>
      cases S with
      | nil => exact absurd rfl hS
      | cons q S'' =>
        obtain ⟨sub, hsub⟩ := exists_insertPath_nil (q :: S'') (by simp) info2
        refine ⟨[(p, PyVal.dict sub)], [(p, leafInfo st1)],
          [("type", PyVal.str (if st1.html_tags.isEmpty then "text" else "html")),
           ("occurrences", PyVal.int st1.count)],
          ?_, ?_, ?_, ?_, ?_⟩
        · simp [insertPath, pyGet, pySet, hsub]
        · simp [insertPath, pyGet, pySet, leafInfo]
        · simp [followPath, pyGet, leafInfo]
        · simp [pyGet]
        · simp [pyGet]
    | cons q P'' =>
      obtain ⟨d1', d2', entries', h1', h2', h3', h4', h5'⟩ := ih (by simp) S hS st1 info2
      refine ⟨[(p, PyVal.dict d1')], [(p, PyVal.dict d2')], entries', ?_, ?_, ?_, h4', h5'⟩
      · have happ : ((q :: P'') ++ S) = q :: (P'' ++ S) := rfl
        rw [happ] at h1'
        have happ2 : ((p :: q :: P'') ++ S) = p :: (q :: (P'' ++ S)) := rfl
        rw [happ2]
        simp [insertPath, pyGet, pySet, h1']
      · simp [insertPath, pyGet, pySet, h2']
      · simp [followPath, pyGet, h3']

/-- Claim C4, amended: when an accumulated field path is both a leaf and
a `.`-prefix of another accumulated path, and the first extension segment
is neither `type` nor `occurrences` (the two literal keys of the leaf
info dict), the structure tree built from the two-path collection keeps
the leaf's type classification and occurrence count present at the
leaf's node, in either insertion order.  (When the extension segment IS
one of those two literal keys, the deeper insertion overwrites the leaf's
info: see the counterexample.) -/
theorem c4_amended_leaf_info_preserved (pS qS : String) (P : List String) (s0 : String)
    (S' : List String) (st1 st2 : FieldStats)
    (hP : splitDot pS = P) (hQ : splitDot qS = P ++ s0 :: S') (hPne : P ≠ [])
    (h0 : s0 ≠ "type") (h1 : s0 ≠ "occurrences") :
    (∃ t entries, build_structure_tree [(pS, st1), (qS, st2)] = some t
      ∧ followPath t P = some (PyVal.dict entries)
      ∧ pyGet entries "type" = some (PyVal.str (if st1.html_tags.isEmpty then "text" else "html"))
      ∧ pyGet entries "occurrences" = some (PyVal.int st1.count))
    ∧ (∃ t entries, build_structure_tree [(qS, st2), (pS, st1)] = some t
      ∧ followPath t P = some (PyVal.dict entries)
      ∧ pyGet entries "type" = some (PyVal.str (if st1.html_tags.isEmpty then "text" else "html"))
      ∧ pyGet entries "occurrences" = some (PyVal.int st1.count)) := by
  constructor
  · obtain ⟨d1, d2, entries, h1', h2', h3', h4', h5'⟩ :=
      insert_leaf_then_deeper P hPne s0 S' st1 (leafInfo st2) h0 h1
    refine ⟨d2, entries, ?_, h3', h4', h5'⟩
    simp [build_structure_tree, build_tree_fold, hP, hQ, h1', h2']
  · obtain ⟨d1, d2, entries, h1', h2', h3', h4', h5'⟩ :=
      insert_branch_then_leaf P hPne (s0 :: S') (by simp) st1 (leafInfo st2)
    refine ⟨d2, entries, ?_, h3', h4', h5'⟩
    simp [build_structure_tree, build_tree_fold, hP, hQ, h1', h2']

/-- First C4 witness accumulator (a leaf observed once as plain text). -/
def c4Stats1 : FieldStats :=
  { count := 3, sample_values := ["x"], html_tags := [],
    max_length := 1, has_tables := false, has_lists := false, section_codes := [] }

/-- Second C4 witness accumulator. -/
def c4Stats2 : FieldStats :=
  { count := 2, sample_values := ["y"], html_tags := ["p"],
    max_length := 1, has_tables := false, has_lists := false, section_codes := [] }

/-- Witness for the amended C4 at the concrete paths `a` and `a.b`. -/
theorem c4_amended_witness :
    splitDot "a" = ["a"]
    ∧ splitDot "a.b" = ["a"] ++ "b" :: []
    ∧ (∃ t entries, build_structure_tree [("a", c4Stats1), ("a.b", c4Stats2)] = some t
        ∧ followPath t ["a"] = some (PyVal.dict entries)
        ∧ pyGet entries "type" = some (PyVal.str (if c4Stats1.html_tags.isEmpty then "text" else "html"))
        ∧ pyGet entries "occurrences" = some (PyVal.int c4Stats1.count)) :=
  ⟨rfl, rfl,
    (c4_amended_leaf_info_preserved "a" "a.b" ["a"] "b" [] c4Stats1 c4Stats2 rfl rfl
      (by simp) (by decide) (by decide)).1⟩

/-- C4 counterexample, first document: field `a` is the text "x". -/
def c4DocA : JObj := JObj.cons "a" (JValue.str "x") JObj.nil

/-- C4 counterexample, second document: field `a` is an object whose only
key is literally named `type`. -/
def c4DocB : JObj :=
  JObj.cons "a" (JValue.obj (JObj.cons "type" (JValue.str "y") JObj.nil)) JObj.nil

/-- The accumulator of field `a` after walking the two C4 documents. -/
def c4LeafStats : FieldStats :=
  { count := 1, sample_values := ["x"], html_tags := [],
    max_length := 1, has_tables := false, has_lists := false, section_codes := [] }

/-- The accumulator of field `a.type` after walking the two C4 documents. -/
def c4TypeStats : FieldStats :=
  { count := 1, sample_values := ["y"], html_tags := [],
    max_length := 1, has_tables := false, has_lists := false, section_codes := [] }

/-- Claim C4, counterexample: walking `{"a": "x"}` then
`{"a": {"type": "y"}}` accumulates the two paths `a` (a leaf) and
`a.type` (an extension of it).  Building the structure tree inserts
`a.type` INTO the leaf's own info dict, overwriting its `'type'` key: the
leaf's type classification (the string `"text"`) is no longer present at
node `a` — its `type` entry now holds the nested leaf dict instead. -/
theorem c4_counterexample :
    walk_docs emptyParse [c4DocA, c4DocB] [] = [("a", c4LeafStats), ("a.type", c4TypeStats)]
    ∧ build_structure_tree [("a", c4LeafStats), ("a.type", c4TypeStats)]
        = some [("a", PyVal.dict
            [("type", PyVal.dict [("type", PyVal.str "text"), ("occurrences", PyVal.int 1)]),
             ("occurrences", PyVal.int 1)])]
    ∧ pyGet [("type", PyVal.dict [("type", PyVal.str "text"), ("occurrences", PyVal.int 1)]),
             ("occurrences", PyVal.int 1)] "type" ≠ some (PyVal.str "text") := by
  refine ⟨rfl, rfl, ?_⟩
  intro h
  simp [pyGet] at h
